import Mathlib

/-!
Shallow embedding of the `scouting-charts` repository (Bybit market
scanner) and verification of its natural-language specification.

Conventions of the embedding:
* pandas DataFrames become Lean lists; a candlestick row becomes a
  `Candle` structure; real numbers become `ℚ` (the code only performs
  field arithmetic and comparisons on them).
* a pandas `NaN` cell becomes `none : Option ℚ`; pandas comparisons
  against `NaN` are `False`, which the helpers `gtO`/`ltO` reproduce.
* Python dictionaries with a fixed key set become structures; a key that
  one producer omits becomes an `Option` field, `none` meaning "key
  absent" (a lookup of an absent key is a `KeyError`, modelled with
  `Except`).
* timestamps are minutes since the epoch (`Nat`); file-system state is
  an explicit list of files with modification times.
-/

namespace DataFetcher

/-- The sub-day candle intervals accepted by `calculate_required_points`
(`data_fetcher.py`), each a number of minutes rendered as a string. -/
def minuteIntervals : List String :=
  ["1", "3", "5", "15", "30", "60", "120", "240", "360", "720"]

/-- All interval codes accepted by `calculate_required_points`. -/
def supportedIntervals : List String := minuteIntervals ++ ["D", "W", "M"]

/-- Python's `int(interval)` for the supported numeric interval strings
(`data_fetcher.py:74`); decimal parsing is tabulated on the ten interval
strings the program accepts, `0` elsewhere. -/
def intervalMinutes (s : String) : Nat :=
  if s = "1" then 1
  else if s = "3" then 3
  else if s = "5" then 5
  else if s = "15" then 15
  else if s = "30" then 30
  else if s = "60" then 60
  else if s = "120" then 120
  else if s = "240" then 240
  else if s = "360" then 360
  else if s = "720" then 720
  else 0

/-- Embeds `BybitDataFetcher.calculate_required_points`
(`data_fetcher.py:53-77`): points needed for `days` days of history at a
given interval, clamped to the exchange limit of 1000 per request. -/
def calculate_required_points (days : Nat) (interval : String) : Nat :=
  if interval = "D" ∨ interval = "W" ∨ interval = "M" then
    let points :=
      if interval = "D" then days
      else if interval = "W" then days / 7 + 1
      else days / 30 + 1
    min points 1000
  else
    min ((days * 24 * 60) / intervalMinutes interval) 1000

end DataFetcher

/-- One candlestick row of the canonical table produced by the fetcher
(`data_fetcher.py:133-147`): timestamp (minutes since epoch) plus the
numeric columns the analyzers read. -/
structure Candle where
  ts : Nat
  Open : ℚ
  High : ℚ
  Low : ℚ
  Close : ℚ
  Volume : ℚ
  deriving Repr, DecidableEq, Inhabited

namespace DataFetcher

/-- Outcome of one kline request inside `get_kline_data`: either a parsed
(possibly empty) table or a fetch-level exception. -/
inductive FetchOutcome where
  | ok : List Candle → FetchOutcome
  | err : String → FetchOutcome

/-- Embeds the failure semantics of `BybitDataFetcher.get_kline_data`
(`data_fetcher.py:79-160`): an empty exchange response yields an empty
table, and any fetch-level exception is caught and also yields an empty
table instead of propagating. -/
def get_kline_data : FetchOutcome → List Candle
  | .ok rows => rows
  | .err _ => []

/-- Embeds `BybitDataFetcher.fetch_all_market_data`
(`data_fetcher.py:199-230`): visit every symbol in order, call
`get_kline_data`, and keep the symbol in the result mapping only when the
returned table is non-empty.  `fetch` is the per-symbol request outcome. -/
def fetch_all_market_data (symbols : List String) (fetch : String → FetchOutcome) :
    List (String × List Candle) :=
  symbols.foldl
    (fun acc s =>
      let df := get_kline_data (fetch s)
      if df.isEmpty then acc else acc ++ [(s, df)])
    []

end DataFetcher

/-! ### Shared pandas semantics

Helpers reproducing the pandas behaviour both analyzers rely on: `NaN`
is `none`, comparisons with `NaN` are false, `Series.diff` is undefined
at row 0. -/

/-- Strict `>` of two pandas cells: false whenever either side is NaN. -/
def gtO : Option ℚ → Option ℚ → Bool
  | some x, some y => decide (y < x)
  | _, _ => false

/-- `Series.diff` on an integer series: row 0 is NaN, row `i`
(`i ≥ 1`) is `xs[i] - xs[i-1]`. -/
def pandasDiff (xs : List Int) : List (Option Int) :=
  match xs with
  | [] => []
  | _ :: rest => none :: xs.zipWith (fun a b => some (b - a)) rest

/-- Embeds `(analysis_df['Trend'].diff() != 0).sum()` — the
`trend_changes` metric computed identically at `market_b.py:133` and
`market_a.py:239`.  `NaN != 0` is `True` in pandas, so row 0 of a
non-empty series always counts. -/
def trend_changes_of (trends : List Int) : Nat :=
  (pandasDiff trends).countP (fun d => decide (d ≠ some 0))

/-- Embeds the `price_change_24h` expression computed identically at
`market_b.py:139-141` and `market_a.py:250-252`:
`(close.iloc[-1] / close.iloc[-24] - 1) * 100` when the table has at
least 24 rows, else `None`. -/
def price_change_24h (closes : List ℚ) : Option ℚ :=
  if 24 ≤ closes.length then
    some ((closes.getD (closes.length - 1) 0 / closes.getD (closes.length - 24) 0 - 1) * 100)
  else none

/-- The `market_stats` dictionary shape shared by both analyzers. -/
structure MarketStats where
  total_assets : Nat
  uptrend_percentage : ℚ
  downtrend_percentage : ℚ
  neutral_percentage : ℚ

/-- Embeds the `market_stats` construction at `market_b.py:108-115` and
`market_a.py:198-205` from the loop counters `valid_assets`,
`uptrend_count`, `downtrend_count`. -/
def mkMarketStats (valid up down : Nat) : MarketStats where
  total_assets := valid
  uptrend_percentage := if 0 < valid then (up : ℚ) / valid * 100 else 0
  downtrend_percentage := if 0 < valid then (down : ℚ) / valid * 100 else 0
  neutral_percentage :=
    if 0 < valid then ((valid : ℚ) - up - down) / valid * 100 else 0

/-- The dictionary returned by both `analyze_market` implementations. -/
structure MarketAnalysis (α : Type) where
  market_stats : MarketStats
  assets_analysis : List (String × α)

/-! ### Moving-Average pipeline (`market_b.py`)

The SMA/trend computations read only the `Close` column, so they are
embedded over the list of closes. -/

namespace MarketB

/-- Embeds `df['Close'].rolling(window=period).mean()`
(`market_b.py:37`) at row `i`: defined once `period` rows are
available (pandas requires `period ≥ 1`). -/
def smaAt (period : Nat) (closes : List ℚ) (i : Nat) : Option ℚ :=
  if 1 ≤ period ∧ period ≤ i + 1 then
    some ((((closes.drop (i + 1 - period)).take period).sum) / period)
  else none

/-- Embeds `result_df['SMA'].diff()` (`market_b.py:56`) at row `i`:
NaN at row 0 and wherever either SMA value is NaN. -/
def smaChangeAt (period : Nat) (closes : List ℚ) (i : Nat) : Option ℚ :=
  match i with
  | 0 => none
  | j + 1 => Option.map₂ (· - ·) (smaAt period closes (j + 1)) (smaAt period closes j)

/-- Embeds the masked assignments of `TrendDetector.detect_trend`
(`market_b.py:59-69`) at row `i`: `1` where `Close > SMA` and
`SMA_Change > 0`, `-1` where `Close < SMA` and `SMA_Change < 0`, else
the initial `0`; comparisons with NaN are false. -/
def trendAt (period : Nat) (closes : List ℚ) (i : Nat) : Int :=
  if gtO (some (closes.getD i 0)) (smaAt period closes i)
      && gtO (smaChangeAt period closes i) (some 0) then 1
  else if gtO (smaAt period closes i) (some (closes.getD i 0))
      && gtO (some 0) (smaChangeAt period closes i) then -1
  else 0

/-- The `Trend` column produced by `detect_trend`. -/
def trendList (period : Nat) (closes : List ℚ) : List Int :=
  (List.range closes.length).map (trendAt period closes)

/-- The per-asset dictionary returned by
`MarketAnalyzer.analyze_asset` (`market_b.py:122-143`).  The `sma`
value is the last SMA cell, which is NaN (`none`) when the table is
shorter than the period. -/
structure AssetAnalysis where
  current_trend : Int
  trend_changes : Nat
  last_price : ℚ
  price_change_24h : Option ℚ
  sma : Option ℚ

/-- Embeds `MarketAnalyzer.analyze_asset` (`market_b.py:122-143`). -/
def analyze_asset (period : Nat) (closes : List ℚ) : AssetAnalysis where
  current_trend := (trendList period closes).getLastD 0
  trend_changes := trend_changes_of (trendList period closes)
  last_price := closes.getLastD 0
  price_change_24h := price_change_24h closes
  sma := smaAt period closes (closes.length - 1)

/-- The loop accumulator of `MarketAnalyzer.analyze_market`
(`market_b.py:88-105`): `valid_assets`, `uptrend_count`,
`downtrend_count`, and the accumulated `assets_analysis`. -/
def tally (period : Nat) : List (String × List ℚ) → Nat × Nat × Nat × List (String × AssetAnalysis)
  | [] => (0, 0, 0, [])
  | (symbol, closes) :: rest =>
    let r := tally period rest
    if closes.length < period then r
    else
      let analysis := analyze_asset period closes
      (r.1 + 1,
       r.2.1 + (if analysis.current_trend = 1 then 1 else 0),
       r.2.2.1 + (if analysis.current_trend = -1 then 1 else 0),
       (symbol, analysis) :: r.2.2.2)

/-- Embeds `MarketAnalyzer.analyze_market` (`market_b.py:83-120`). -/
def analyze_market (period : Nat) (market : List (String × List ℚ)) :
    MarketAnalysis AssetAnalysis :=
  let r := tally period market
  { market_stats := mkMarketStats r.1 r.2.1 r.2.2.1
    assets_analysis := r.2.2.2 }

end MarketB

/-! ### Volatility-Band pipeline (`market_a.py`) -/

/-- `max(axis=1)` over pandas cells with the default `skipna=True`:
NaN entries are ignored; all-NaN gives NaN. -/
def maxSkipna (xs : List (Option ℚ)) : Option ℚ :=
  xs.foldl
    (fun acc x =>
      match acc, x with
      | none, v => v
      | some a, none => some a
      | some a, some b => some (max a b))
    none

/-- `Series.rolling(window=w).mean()` over a series with NaN cells
(default `min_periods = w`): defined at row `i` only when `w ≥ 1`, at
least `w` rows are available and no cell of the window is NaN. -/
def rollingMeanO (w : Nat) (xs : List (Option ℚ)) : List (Option ℚ) :=
  (List.range xs.length).map
    (fun i =>
      if 1 ≤ w ∧ w ≤ i + 1 then
        let window := (xs.drop (i + 1 - w)).take w
        if window.all Option.isSome then
          some ((window.map (fun o => o.getD 0)).sum / w)
        else none
      else none)

/-- `Series.mean()` with the default `skipna=True`: the mean of the
non-NaN cells, NaN when there are none. -/
def meanSkipna (xs : List (Option ℚ)) : Option ℚ :=
  let vals := xs.filterMap id
  if vals.length = 0 then none else some (vals.sum / vals.length)

/-- `Series.ffill()`: each NaN cell is replaced by the last non-NaN
cell above it (the accumulator carries that cell). -/
def ffill (last : Option ℚ) : List (Option ℚ) → List (Option ℚ)
  | [] => []
  | none :: rest => last :: ffill last rest
  | some v :: rest => some v :: ffill (some v) rest

/-- `Series.reindex(index)` with exact label matching: position `t` of
the result carries the series value whose label equals `t`, and NaN when
no label matches (or the matched cell is itself NaN). -/
def reindexTo (series : List (Nat × Option ℚ)) (ts : List Nat) : List (Option ℚ) :=
  ts.map (fun t => (series.find? (fun p => p.1 == t)).bind (fun p => p.2))

/-- Modelled from the spec: "the last known resampled value is held
constant until the next resampled bucket closes" — the last non-NaN
value at or before a position.  Compared against the source's
`reindex(...).ffill()` in the C5 theorems. -/
def lastSome (xs : List (Option ℚ)) : Option ℚ :=
  xs.foldl (fun acc x => match x with | some v => some v | none => acc) none

namespace MarketA

/-- One row of the resampled table built at `market_a.py:57-63`;
`first/max/min/last` of an empty bucket are NaN, its `Volume` sum is 0. -/
structure RBar where
  Open : Option ℚ
  High : Option ℚ
  Low : Option ℚ
  Close : Option ℚ
  Volume : ℚ
  deriving Repr, DecidableEq, Inhabited

/-- The original rows falling in bucket `b` of width `n` minutes
(buckets are aligned to the epoch, which coincides with pandas'
`start_day` origin for the intervals the program uses, all of which
divide one day). -/
def bucketRows (n : Nat) (df : List Candle) (b : Nat) : List Candle :=
  df.filter (fun r => r.ts / n == b)

/-- The `agg` dictionary of `resample_to_interval` (`market_a.py:57-63`):
Open = first, High = max, Low = min, Close = last, Volume = sum. -/
def aggBucket (rows : List Candle) : RBar where
  Open := rows.head?.map (fun r => r.Open)
  High := (rows.map (fun r => some r.High)).foldl
    (fun acc x =>
      match acc, x with
      | none, v => v
      | some a, none => some a
      | some a, some b => some (max a b)) none
  Low := (rows.map (fun r => some r.Low)).foldl
    (fun acc x =>
      match acc, x with
      | none, v => v
      | some a, none => some a
      | some a, some b => some (min a b)) none
  Close := rows.getLast?.map (fun r => r.Close)
  Volume := (rows.map (fun r => r.Volume)).sum

/-- Embeds `ModifiedATR.resample_to_interval` (`market_a.py:42-65`):
one labelled row per `n`-minute bucket between the first and last
original timestamp, labelled by the bucket's start time. -/
def resample_to_interval (n : Nat) (df : List Candle) : List (Nat × RBar) :=
  match (df.map (fun r => r.ts / n)).min?, (df.map (fun r => r.ts / n)).max? with
  | some lo, some hi =>
    (List.range' lo (hi + 1 - lo)).map (fun b => (b * n, aggBucket (bucketRows n df b)))
  | _, _ => []

/-- Embeds `_calculate_true_range` (`market_a.py:30-35`) over the
resampled bars: `max(High - Low, |High - prevClose|, |Low - prevClose|)`
with NaN cells skipped by the row-wise max. -/
def trueRangeList (bars : List RBar) : List (Option ℚ) :=
  (List.range bars.length).map
    (fun i =>
      let b := bars.getD i default
      let prevC : Option ℚ := if i = 0 then none else (bars.getD (i - 1) default).Close
      maxSkipna
        [Option.map₂ (· - ·) b.High b.Low,
         (Option.map₂ (· - ·) b.High prevC).map (fun q => |q|),
         (Option.map₂ (· - ·) b.Low prevC).map (fun q => |q|)])

/-- Embeds `_calculate_atr` times the multiplier
(`market_a.py:37-40, 86-90`): rolling mean of the true range over
`period` resampled rows, scaled by `mult`. -/
def atrList (period : Nat) (mult : ℚ) (bars : List RBar) : List (Option ℚ) :=
  (rollingMeanO period (trueRangeList bars)).map (Option.map (fun q => q * mult))

/-- The labelled resampled-Close series (`resampled['Close']`). -/
def resampledClosePairs (n : Nat) (df : List Candle) : List (Nat × Option ℚ) :=
  (resample_to_interval n df).map (fun p => (p.1, p.2.Close))

/-- The labelled resampled-ATR series (`resampled['ATR']`). -/
def resampledATRPairs (n period : Nat) (mult : ℚ) (df : List Candle) :
    List (Nat × Option ℚ) :=
  ((resample_to_interval n df).map (fun p => p.1)).zip
    (atrList period mult ((resample_to_interval n df).map (fun p => p.2)))

/-- Embeds the merge-back loop of `ModifiedATR.calculate`
(`market_a.py:99-102`): `resampled[col].reindex(df.index).ffill()`. -/
def carriedColumn (series : List (Nat × Option ℚ)) (df : List Candle) :
    List (Option ℚ) :=
  ffill none (reindexTo series (df.map (fun r => r.ts)))

/-- The `Resample_{n}_Close` column on the original timeline. -/
def resampleCloseCarried (n : Nat) (df : List Candle) : List (Option ℚ) :=
  carriedColumn (resampledClosePairs n df) df

/-- The `Resample_{n}_ATR` column on the original timeline. -/
def resampleATRCarried (n period : Nat) (mult : ℚ) (df : List Candle) :
    List (Option ℚ) :=
  carriedColumn (resampledATRPairs n period mult df) df

/-- Embeds `TrendDetector.detect_trend` (`market_a.py:120-147`): a
moving average of the carried resampled Close over `tp` rows, bands at
`ma ± ATR * vm`, and per-row classification.  The `-1` mask is applied
after the `1` mask in the source and therefore wins when both hold. -/
def trendList (n period : Nat) (mult : ℚ) (tp : Nat) (vm : ℚ) (df : List Candle) :
    List Int :=
  let closeC := resampleCloseCarried n df
  let atrC := resampleATRCarried n period mult df
  let ma := rollingMeanO tp closeC
  let upper := List.zipWith (Option.map₂ (· + ·)) ma
    (atrC.map (Option.map (fun q => q * vm)))
  let lower := List.zipWith (Option.map₂ (· - ·)) ma
    (atrC.map (Option.map (fun q => q * vm)))
  (List.range df.length).map
    (fun i =>
      if gtO (lower.getD i none) (closeC.getD i none) then -1
      else if gtO (closeC.getD i none) (upper.getD i none) then 1
      else 0)

/-- The per-asset dictionary returned by `MarketAnalyzer.analyze_asset`
(`market_a.py:212-253`); note there is no `sma` key. -/
structure AssetAnalysis where
  current_trend : Int
  avg_volatility : Option ℚ
  current_volatility : Option ℚ
  trend_changes : Nat
  last_price : ℚ
  price_change_24h : Option ℚ

/-- Embeds `MarketAnalyzer.analyze_asset` (`market_a.py:212-253`). -/
def analyze_asset (n period : Nat) (mult : ℚ) (tp : Nat) (vm : ℚ)
    (df : List Candle) : AssetAnalysis where
  current_trend := (trendList n period mult tp vm df).getLastD 0
  avg_volatility := meanSkipna (resampleATRCarried n period mult df)
  current_volatility := (resampleATRCarried n period mult df).getLastD none
  trend_changes := trend_changes_of (trendList n period mult tp vm df)
  last_price := (df.map (fun r => r.Close)).getLastD 0
  price_change_24h := price_change_24h (df.map (fun r => r.Close))

/-- The skip test of `analyze_market` (`market_a.py:184-187`): with a
threshold configured, an asset is dropped when its average volatility is
strictly below it; a NaN average compares false and is kept. -/
def lowVolatility (min_volatility : Option ℚ) (a : AssetAnalysis) : Bool :=
  match min_volatility, a.avg_volatility with
  | some thr, some v => decide (v < thr)
  | _, _ => false

/-- The loop accumulator of `MarketAnalyzer.analyze_market`
(`market_a.py:172-195`). -/
def tally (n period : Nat) (mult : ℚ) (tp : Nat) (vm : ℚ)
    (min_volatility : Option ℚ) :
    List (String × List Candle) → Nat × Nat × Nat × List (String × AssetAnalysis)
  | [] => (0, 0, 0, [])
  | (symbol, df) :: rest =>
    let r := tally n period mult tp vm min_volatility rest
    if df.length < 20 then r
    else
      let analysis := analyze_asset n period mult tp vm df
      if lowVolatility min_volatility analysis then r
      else
        (r.1 + 1,
         r.2.1 + (if analysis.current_trend = 1 then 1 else 0),
         r.2.2.1 + (if analysis.current_trend = -1 then 1 else 0),
         (symbol, analysis) :: r.2.2.2)

/-- Embeds `MarketAnalyzer.analyze_market` (`market_a.py:163-210`). -/
def analyze_market (n period : Nat) (mult : ℚ) (tp : Nat) (vm : ℚ)
    (min_volatility : Option ℚ) (market : List (String × List Candle)) :
    MarketAnalysis AssetAnalysis :=
  let r := tally n period mult tp vm min_volatility market
  { market_stats := mkMarketStats r.1 r.2.1 r.2.2.1
    assets_analysis := r.2.2.2 }

end MarketA

/-- The market-statistics shape both analyzers guarantee: all three
percentages are zero when no asset qualifies, and otherwise they are the
counted fractions, the neutral one being the complement of the counts,
and they sum to exactly 100. -/
def StatsSpec (s : MarketStats) : Prop :=
  (s.total_assets = 0 →
    s.uptrend_percentage = 0 ∧ s.downtrend_percentage = 0 ∧ s.neutral_percentage = 0) ∧
  (0 < s.total_assets →
    s.uptrend_percentage + s.downtrend_percentage + s.neutral_percentage = 100 ∧
    ∃ u d : Nat, u + d ≤ s.total_assets ∧
      s.uptrend_percentage = (u : ℚ) / s.total_assets * 100 ∧
      s.downtrend_percentage = (d : ℚ) / s.total_assets * 100 ∧
      s.neutral_percentage = ((s.total_assets : ℚ) - u - d) / s.total_assets * 100)

/-! ### Analysis storage (`market_storage.py`) -/

namespace MarketStorage

/-- The slice of a per-asset analysis dictionary that `save_analysis`
reads (`market_storage.py:32-37`): `current_trend`, `last_price`, and
`sma`; the Volatility-Band pipeline's dictionaries have no `'sma'` key,
modelled as `sma = none`. -/
structure AssetDict where
  current_trend : Int
  last_price : ℚ
  sma : Option ℚ
  deriving Repr, DecidableEq

/-- One entry of the `trending_assets` list (`market_storage.py:39-45`). -/
structure TrendingAsset where
  symbol : String
  trend : String
  price : ℚ
  sma : ℚ
  distance : ℚ
  deriving Repr, DecidableEq

/-- Python's `int()` on a rational: truncation toward zero. -/
def pyInt (q : ℚ) : ℤ := if 0 ≤ q then ⌊q⌋ else ⌈q⌉

/-- The sort key comparison of `market_storage.py:48`
(`sort(key=distance, reverse=True)`): descending by distance. -/
def distGe (a b : TrendingAsset) : Bool := decide (b.distance ≤ a.distance)

/-- The annotation each clear-trend asset receives in the loop at
`market_storage.py:32-45`. -/
def annotateAsset (e : String × AssetDict) : TrendingAsset where
  symbol := e.1
  trend := if e.2.current_trend = 1 then "uptrend" else "downtrend"
  price := e.2.last_price
  sma := e.2.sma.getD 0
  distance := |e.2.last_price - e.2.sma.getD 0| / e.2.sma.getD 0 * 100

/-- The assets the trending loop keeps:
`abs(data['current_trend']) == 1` (`market_storage.py:33`). -/
def clearTrendEntries (assets : List (String × AssetDict)) :
    List (String × AssetDict) :=
  assets.filter (fun e => e.2.current_trend.natAbs == 1)

/-- Embeds the trending-assets loop (`market_storage.py:31-45`): visits
the entries in order, reads `last_price` and `sma` of every clear-trend
entry, and raises `KeyError` at the first clear-trend entry whose
dictionary lacks the `sma` key. -/
def buildTrendingAssets : List (String × AssetDict) → Except String (List TrendingAsset)
  | [] => .ok []
  | (symbol, data) :: rest =>
    if data.current_trend.natAbs = 1 then
      match data.sma with
      | none => .error "KeyError: sma"
      | some sma =>
        (buildTrendingAssets rest).map
          (fun l =>
            { symbol := symbol
              trend := if data.current_trend = 1 then "uptrend" else "downtrend"
              price := data.last_price
              sma := sma
              distance := |data.last_price - sma| / sma * 100 } :: l)
    else buildTrendingAssets rest

/-- The `market_summary` object (`market_storage.py:54-62`): the stored
counts are the percentages multiplied back against `total_assets` and
truncated by Python's `int()`. -/
structure MarketSummary where
  total_assets : Nat
  assets_in_uptrend : ℤ
  assets_in_downtrend : ℤ
  assets_in_neutral : ℤ
  uptrend_percentage : ℚ
  downtrend_percentage : ℚ
  neutral_percentage : ℚ
  deriving Repr

def mkMarketSummary (market_stats : MarketStats) : MarketSummary where
  total_assets := market_stats.total_assets
  assets_in_uptrend :=
    pyInt ((market_stats.total_assets : ℚ) * market_stats.uptrend_percentage / 100)
  assets_in_downtrend :=
    pyInt ((market_stats.total_assets : ℚ) * market_stats.downtrend_percentage / 100)
  assets_in_neutral :=
    pyInt ((market_stats.total_assets : ℚ) * market_stats.neutral_percentage / 100)
  uptrend_percentage := market_stats.uptrend_percentage
  downtrend_percentage := market_stats.downtrend_percentage
  neutral_percentage := market_stats.neutral_percentage

/-- The `analysis_data` record written to disk
(`market_storage.py:51-64`). -/
structure AnalysisData where
  timestamp : String
  interval : String
  market_summary : MarketSummary
  top_trending_assets : List TrendingAsset

/-- Embeds `MarketDataStorage.save_analysis` (`market_storage.py:14-71`)
up to the file write: build the trending list (which can raise
`KeyError`), sort it descending by distance (Python's stable sort,
embedded as a stable merge sort), truncate to `top_n`, and assemble the
record.  `timestamp` stands for `datetime.now().isoformat()`. -/
def save_analysis (market_stats : MarketStats)
    (assets_analysis : List (String × AssetDict)) (interval timestamp : String)
    (top_n : Nat) : Except String AnalysisData :=
  (buildTrendingAssets assets_analysis).map
    (fun trending =>
      { timestamp := timestamp
        interval := interval
        market_summary := mkMarketSummary market_stats
        top_trending_assets := (trending.mergeSort distGe).take top_n })

/-- One file of the snapshot directory: the interval component of its
`market_analysis_<interval>_<timestamp>.json` name, its filesystem
modification time, and its parsed content (`none` when unreadable). -/
structure SnapshotFile where
  interval : String
  mtime : Nat
  content : Option AnalysisData

/-- `save_analysis` at the file-system level: on success a new snapshot
file is appended to the directory; when the record construction raises,
nothing is written. -/
def runSave (dir : List SnapshotFile) (market_stats : MarketStats)
    (assets_analysis : List (String × AssetDict)) (interval timestamp : String)
    (top_n : Nat) (mtime : Nat) : List SnapshotFile :=
  match save_analysis market_stats assets_analysis interval timestamp top_n with
  | .ok rec => dir ++ [⟨interval, mtime, some rec⟩]
  | .error _ => dir

/-- Embeds `MarketDataStorage.load_latest_analysis`
(`market_storage.py:73-89`): filter the directory to the given
interval's snapshot files, return `{}` (here `none`) when none exist,
otherwise parse the file with the greatest modification time (Python's
`max` keeps the first maximum), returning `{}` on a parse failure. -/
def load_latest_analysis (interval : String) (dir : List SnapshotFile) :
    Option AnalysisData :=
  match dir.filter (fun f => f.interval == interval) with
  | [] => none
  | f :: rest =>
    (rest.foldl (fun acc g => if acc.mtime < g.mtime then g else acc) f).content

end MarketStorage

/-- The dictionary view of a Moving-Average per-asset result as passed
to `save_analysis` by `main.py`: the `sma` key is always present (its
float value is NaN only on a table shorter than the period, in which
case the trend is neutral and `save_analysis` never reads the value,
embedded here by `getD 0`). -/
def MarketB.toDict (a : MarketB.AssetAnalysis) : MarketStorage.AssetDict where
  current_trend := a.current_trend
  last_price := a.last_price
  sma := some (a.sma.getD 0)

/-- The dictionary view of a Volatility-Band per-asset result: the
dictionary built at `market_a.py:244-253` has no `'sma'` key. -/
def MarketA.toDict (a : MarketA.AssetAnalysis) : MarketStorage.AssetDict where
  current_trend := a.current_trend
  last_price := a.last_price
  sma := none

/-! ### Moving-Average orchestration (`main.py`) -/

namespace Main

/-- Embeds the comparison guard of `main.py:71-87`: `latest_analysis`
and `previous_analysis` are two `load_latest_analysis` calls against the
same directory state, and the percentage-delta block is printed only
when `previous_analysis` is truthy and the two timestamps differ. -/
def comparison_printed (interval : String) (dir : List MarketStorage.SnapshotFile) :
    Bool :=
  match MarketStorage.load_latest_analysis interval dir,
      MarketStorage.load_latest_analysis interval dir with
  | some latest, some previous => decide (previous.timestamp ≠ latest.timestamp)
  | _, _ => false

end Main

/-- Eight 60-minute bars aligned to the epoch with closes `1..8`: two
240-minute buckets (`0..180` and `240..420`). -/
def exampleHourly : List Candle :=
  [⟨0, 1, 1, 1, 1, 1⟩, ⟨60, 2, 2, 2, 2, 1⟩, ⟨120, 3, 3, 3, 3, 1⟩,
   ⟨180, 4, 4, 4, 4, 1⟩, ⟨240, 5, 5, 5, 5, 1⟩, ⟨300, 6, 6, 6, 6, 1⟩,
   ⟨360, 7, 7, 7, 7, 1⟩, ⟨420, 8, 8, 8, 8, 1⟩]

/-- The spec's worked resampling example: four 60-minute bars with opens
`[10, 11, 12, 13]` and closes `[10.5, 11.5, 12.5, 13.5]` (highs at the
close, lows at the open), one 240-minute bucket. -/
def exampleClaim : List Candle :=
  [⟨0, 10, 21/2, 10, 21/2, 2⟩, ⟨60, 11, 23/2, 11, 23/2, 3⟩,
   ⟨120, 12, 25/2, 12, 25/2, 4⟩, ⟨180, 13, 27/2, 13, 27/2, 5⟩]

/-! ### Library lemmas about the embedding -/

namespace DataFetcher

theorem fetch_all_foldl (symbols : List String) (fetch : String → FetchOutcome)
    (acc : List (String × List Candle)) :
    symbols.foldl
      (fun acc s =>
        let df := get_kline_data (fetch s)
        if df.isEmpty then acc else acc ++ [(s, df)]) acc
      = acc ++ (symbols.filter (fun s => !(get_kline_data (fetch s)).isEmpty)).map
          (fun s => (s, get_kline_data (fetch s))) := by
  induction symbols generalizing acc with
  | nil => simp
  | cons s rest ih =>
    simp only [List.foldl_cons, List.filter_cons]
    by_cases h : (get_kline_data (fetch s)).isEmpty
    · rw [if_pos h, ih, h]
      simp
    · have h' : (get_kline_data (fetch s)).isEmpty = false := by
        simpa using h
      rw [if_neg h, ih, h']
      simp

end DataFetcher

theorem gtO_eq_true {a b : Option ℚ} :
    gtO a b = true ↔ ∃ x y, a = some x ∧ b = some y ∧ y < x := by
  cases a with
  | none => simp [gtO]
  | some x =>
    cases b with
    | none => simp [gtO]
    | some y => simp [gtO]

namespace MarketB

theorem tallyB_up_down_le (period : Nat) (market : List (String × List ℚ)) :
    (tally period market).2.1 + (tally period market).2.2.1 ≤ (tally period market).1 := by
  induction market with
  | nil => simp [tally]
  | cons e rest ih =>
    obtain ⟨symbol, closes⟩ := e
    by_cases h : closes.length < period
    · simpa [tally, h] using ih
    · simp only [tally, h, if_false]
      have hPQ : (if (analyze_asset period closes).current_trend = 1 then (1 : Nat) else 0)
          + (if (analyze_asset period closes).current_trend = -1 then (1 : Nat) else 0) ≤ 1 := by
        by_cases h1 : (analyze_asset period closes).current_trend = 1
        · have h2 : ¬ (analyze_asset period closes).current_trend = -1 := by
            rw [h1]; decide
          simp [h1, h2]
        · simp only [h1, if_false]
          split <;> simp
      omega

theorem gtO_none_right (a : Option ℚ) : gtO a none = false := by
  cases a <;> rfl

theorem gtO_none_left (b : Option ℚ) : gtO none b = false := by
  cases b <;> rfl

theorem smaChangeAt_eq_none (period : Nat) (closes : List ℚ) (i : Nat)
    (h : i + 1 ≤ period) : smaChangeAt period closes i = none := by
  match i with
  | 0 => rfl
  | j + 1 =>
    have hj : smaAt period closes j = none := by
      unfold smaAt
      have hn : ¬ (1 ≤ period ∧ period ≤ j + 1) := by omega
      rw [if_neg hn]
    show Option.map₂ (· - ·) (smaAt period closes (j + 1)) (smaAt period closes j) = none
    rw [hj]
    cases smaAt period closes (j + 1) <;> rfl

end MarketB

namespace MarketA

theorem tallyA_up_down_le (n period : Nat) (mult : ℚ) (tp : Nat) (vm : ℚ)
    (min_volatility : Option ℚ) (market : List (String × List Candle)) :
    (tally n period mult tp vm min_volatility market).2.1
        + (tally n period mult tp vm min_volatility market).2.2.1
      ≤ (tally n period mult tp vm min_volatility market).1 := by
  induction market with
  | nil => simp [tally]
  | cons e rest ih =>
    obtain ⟨symbol, df⟩ := e
    by_cases h : df.length < 20
    · simpa [tally, h] using ih
    · by_cases hv : lowVolatility min_volatility (analyze_asset n period mult tp vm df)
      · simpa [tally, h, hv] using ih
      · simp only [tally, h, if_false, hv, Bool.false_eq_true]
        have hPQ : (if (analyze_asset n period mult tp vm df).current_trend = 1
              then (1 : Nat) else 0)
            + (if (analyze_asset n period mult tp vm df).current_trend = -1
              then (1 : Nat) else 0) ≤ 1 := by
          by_cases h1 : (analyze_asset n period mult tp vm df).current_trend = 1
          · have h2 : ¬ (analyze_asset n period mult tp vm df).current_trend = -1 := by
              rw [h1]; decide
            simp [h1, h2]
          · simp only [h1, if_false]
            split <;> simp
        omega

end MarketA

theorem statsSpec_mkMarketStats (valid up down : Nat) (h : up + down ≤ valid) :
    StatsSpec (mkMarketStats valid up down) := by
  constructor
  · intro h0
    have h0' : valid = 0 := h0
    have hn : ¬ 0 < valid := by omega
    simp [mkMarketStats, hn]
  · intro hpos
    have hpos' : 0 < valid := hpos
    have hv : ((valid : ℚ)) ≠ 0 := by
      have : valid ≠ 0 := by omega
      exact_mod_cast this
    refine ⟨?_, up, down, ?_, ?_, ?_, ?_⟩
    · show (if 0 < valid then (up : ℚ) / valid * 100 else 0)
          + (if 0 < valid then (down : ℚ) / valid * 100 else 0)
          + (if 0 < valid then ((valid : ℚ) - up - down) / valid * 100 else 0) = 100
      rw [if_pos hpos', if_pos hpos', if_pos hpos']
      field_simp
      ring
    · exact h
    · show (if 0 < valid then (up : ℚ) / valid * 100 else 0) = (up : ℚ) / valid * 100
      rw [if_pos hpos']
    · show (if 0 < valid then (down : ℚ) / valid * 100 else 0) = (down : ℚ) / valid * 100
      rw [if_pos hpos']
    · show (if 0 < valid then ((valid : ℚ) - up - down) / valid * 100 else 0)
          = ((valid : ℚ) - up - down) / valid * 100
      rw [if_pos hpos']

theorem countP_zipWith_const (c : ℤ) :
    ∀ (x : ℤ) (rest : List ℤ), (∀ t ∈ x :: rest, t = c) →
      (((x :: rest).zipWith (fun a b => some (b - a)) rest).countP
        (fun d => decide (d ≠ some 0))) = 0 := by
  intro x rest
  induction rest generalizing x with
  | nil => intro _; rfl
  | cons y rest' ih =>
    intro h
    have hx : x = c := h x (by simp)
    have hy : y = c := h y (by simp)
    have hz : (some (y - x) : Option ℤ) = some 0 := by
      rw [hx, hy]
      simp
    have hrest : ∀ t ∈ y :: rest', t = c := by
      intro t ht
      exact h t (by simp at ht ⊢; tauto)
    simp only [List.zipWith_cons_cons, List.countP_cons, hz]
    rw [ih y hrest]
    simp

theorem trend_changes_of_pos (trends : List ℤ) (h : trends ≠ []) :
    1 ≤ trend_changes_of trends := by
  match trends with
  | [] => exact absurd rfl h
  | x :: rest =>
    simp only [trend_changes_of, pandasDiff, List.countP_cons]
    simp

theorem trend_changes_of_const (trends : List ℤ) (h : trends ≠ [])
    (hc : ∃ c, ∀ t ∈ trends, t = c) : trend_changes_of trends = 1 := by
  match trends with
  | [] => exact absurd rfl h
  | x :: rest =>
    obtain ⟨c, hc⟩ := hc
    simp only [trend_changes_of, pandasDiff, List.countP_cons]
    rw [countP_zipWith_const c x rest hc]
    simp

theorem trend_changes_of_cons (x : ℤ) (rest : List ℤ) :
    trend_changes_of (x :: rest)
      = 1 + (((x :: rest).zipWith (fun a b => some (b - a)) rest).countP
          (fun d => decide (d ≠ some 0))) := by
  simp only [trend_changes_of, pandasDiff, List.countP_cons]
  simp [Nat.add_comm]

theorem buildTrendingAssets_ok (assets : List (String × MarketStorage.AssetDict))
    (h : ∀ e ∈ assets, e.2.current_trend.natAbs = 1 → e.2.sma.isSome) :
    MarketStorage.buildTrendingAssets assets
      = .ok ((MarketStorage.clearTrendEntries assets).map MarketStorage.annotateAsset) := by
  induction assets with
  | nil => rfl
  | cons e rest ih =>
    obtain ⟨symbol, data⟩ := e
    have hrest : ∀ e ∈ rest, e.2.current_trend.natAbs = 1 → e.2.sma.isSome :=
      fun e he => h e (List.mem_cons_of_mem _ he)
    by_cases hc : data.current_trend.natAbs = 1
    · have hs : data.sma.isSome := h (symbol, data) (List.mem_cons_self _ _) hc
      rcases hv : data.sma with _ | v
      · rw [hv] at hs
        simp at hs
      · simp only [MarketStorage.buildTrendingAssets, hc, if_pos, hv]
        rw [ih hrest]
        simp [MarketStorage.clearTrendEntries, MarketStorage.annotateAsset, hc, hv,
          Except.map]
    · simp only [MarketStorage.buildTrendingAssets, hc, if_false]
      rw [ih hrest]
      simp [MarketStorage.clearTrendEntries, hc]

theorem buildTrendingAssets_err (assets : List (String × MarketStorage.AssetDict))
    (h : ∃ e ∈ assets, e.2.current_trend.natAbs = 1 ∧ e.2.sma = none) :
    ∃ msg, MarketStorage.buildTrendingAssets assets = .error msg := by
  induction assets with
  | nil => simp at h
  | cons e rest ih =>
    obtain ⟨symbol, data⟩ := e
    rcases h with ⟨f, hf, hclear, hnone⟩
    rcases List.mem_cons.mp hf with hhead | hfrest
    · subst hhead
      have hc : data.current_trend.natAbs = 1 := hclear
      have hd : data.sma = none := hnone
      exact ⟨"KeyError: sma",
        by simp [MarketStorage.buildTrendingAssets, hc, hd]⟩
    · by_cases hc : data.current_trend.natAbs = 1
      · rcases hv : data.sma with _ | v
        · exact ⟨"KeyError: sma",
            by simp [MarketStorage.buildTrendingAssets, hc, hv]⟩
        · obtain ⟨msg, hmsg⟩ := ih ⟨f, hfrest, hclear, hnone⟩
          exact ⟨msg,
            by simp [MarketStorage.buildTrendingAssets, hc, hv, hmsg, Except.map]⟩
      · obtain ⟨msg, hmsg⟩ := ih ⟨f, hfrest, hclear, hnone⟩
        exact ⟨msg, by simp [MarketStorage.buildTrendingAssets, hc, hmsg]⟩

theorem distGe_trans (a b c : MarketStorage.TrendingAsset)
    (hab : MarketStorage.distGe a b = true) (hbc : MarketStorage.distGe b c = true) :
    MarketStorage.distGe a c = true := by
  simp only [MarketStorage.distGe, decide_eq_true_eq] at *
  exact le_trans hbc hab

theorem distGe_total (a b : MarketStorage.TrendingAsset) :
    (MarketStorage.distGe a b || MarketStorage.distGe b a) = true := by
  simp only [MarketStorage.distGe, Bool.or_eq_true, decide_eq_true_eq]
  exact le_total b.distance a.distance

theorem ffill_getD (xs : List (Option ℚ)) :
    ∀ (last : Option ℚ) (i : Nat), i < xs.length →
      (ffill last xs).getD i none
        = (xs.take (i + 1)).foldl
            (fun acc x => match x with | some v => some v | none => acc) last := by
  induction xs with
  | nil =>
    intro last i h
    simp at h
  | cons x rest ih =>
    intro last i h
    cases x with
    | none =>
      cases i with
      | zero => rfl
      | succ j =>
        have hj : j < rest.length := by simpa using h
        rw [show ffill last (none :: rest) = last :: ffill last rest from rfl]
        rw [List.getD_cons_succ, List.take_succ_cons, List.foldl_cons]
        exact ih last j hj
    | some v =>
      cases i with
      | zero => rfl
      | succ j =>
        have hj : j < rest.length := by simpa using h
        rw [show ffill last (some v :: rest) = some v :: ffill (some v) rest from rfl]
        rw [List.getD_cons_succ, List.take_succ_cons, List.foldl_cons]
        exact ih (some v) j hj

theorem find?_range'_mul {β : Type} (g : Nat → β) (n : Nat) (hn : 0 < n) :
    ∀ (k lo t : Nat), t % n = 0 → lo ≤ t / n → t / n < lo + k →
      ((List.range' lo k).map (fun b => (b * n, g b))).find?
          (fun p => p.1 == t)
        = some ((t / n) * n, g (t / n)) := by
  intro k
  induction k with
  | zero =>
    intro lo t _ h1 h2
    omega
  | succ k ih =>
    intro lo t ht h1 h2
    have htn : t / n * n = t := Nat.div_mul_cancel (Nat.dvd_of_mod_eq_zero ht)
    rw [List.range'_succ, List.map_cons, List.find?_cons]
    by_cases he : lo = t / n
    · have hb : (lo * n == t) = true := by
        simp only [beq_iff_eq]
        rw [he, htn]
      rw [hb, he]
    · have hb : (lo * n == t) = false := by
        simp only [beq_eq_false_iff_ne, ne_eq]
        intro hcontra
        apply he
        have : lo * n / n = t / n := by rw [hcontra]
        rwa [Nat.mul_div_cancel _ hn] at this
      rw [hb]
      exact ih (lo + 1) t ht (by omega) (by omega)

theorem reindex_aligned (nn : Nat) (df : List Candle) (i : Nat)
    (hn : 0 < nn) (hi : i < df.length) (ht : (df.getD i default).ts % nn = 0) :
    (reindexTo (MarketA.resampledClosePairs nn df) (df.map (fun r => r.ts))).getD i none
      = (MarketA.aggBucket (MarketA.bucketRows nn df
          ((df.getD i default).ts / nn))).Close := by
  have hdfi : df.getD i default = df[i] := by
    rw [List.getD_eq_getElem?_getD, List.getElem?_eq_getElem hi]
    rfl
  have hmem : df.getD i default ∈ df := by
    rw [hdfi]
    exact List.getElem_mem hi
  cases hmin : (df.map (fun r => r.ts / nn)).min? with
  | none =>
    rw [List.min?_eq_none_iff, List.map_eq_nil_iff] at hmin
    rw [hmin] at hi
    simp at hi
  | some lo =>
    cases hmax : (df.map (fun r => r.ts / nn)).max? with
    | none =>
      rw [List.max?_eq_none_iff, List.map_eq_nil_iff] at hmax
      rw [hmax] at hi
      simp at hi
    | some hi2 =>
      have hmemq : (df.getD i default).ts / nn ∈ df.map (fun r => r.ts / nn) :=
        List.mem_map.mpr ⟨df.getD i default, hmem, rfl⟩
      have hlo : lo ≤ (df.getD i default).ts / nn := by
        rw [List.min?_eq_some_iff (fun x => Nat.le_refl x) (fun x y => min_choice x y)
          (fun x y z => Nat.le_min)] at hmin
        exact hmin.2 _ hmemq
      have hhi : (df.getD i default).ts / nn ≤ hi2 := by
        rw [List.max?_eq_some_iff (fun x => Nat.le_refl x) (fun x y => max_choice x y)
          (fun x y z => Nat.max_le)] at hmax
        exact hmax.2 _ hmemq
      have hpairs : MarketA.resampledClosePairs nn df
          = (List.range' lo (hi2 + 1 - lo)).map
              (fun b => (b * nn,
                (MarketA.aggBucket (MarketA.bucketRows nn df b)).Close)) := by
        unfold MarketA.resampledClosePairs MarketA.resample_to_interval
        rw [hmin, hmax, List.map_map]
        rfl
      have hgoal : (reindexTo (MarketA.resampledClosePairs nn df)
          (df.map (fun r => r.ts))).getD i none
          = ((MarketA.resampledClosePairs nn df).find?
              (fun p => p.1 == (df.getD i default).ts)).bind (fun p => p.2) := by
        unfold reindexTo
        rw [List.getD_eq_getElem?_getD, List.getElem?_map, List.getElem?_map,
          List.getElem?_eq_getElem hi]
        rw [hdfi]
        rfl
      rw [hgoal, hpairs,
        find?_range'_mul (fun b => (MarketA.aggBucket (MarketA.bucketRows nn df b)).Close)
          nn hn (hi2 + 1 - lo) lo ((df.getD i default).ts) ht hlo (by omega)]
      rfl

/-! ### The claims -/

/-- C1: `calculate_required_points` returns `days` for interval `'D'`,
`days / 7 + 1` for `'W'`, `days / 30 + 1` for `'M'`, and
`(days * 1440) / interval_minutes` for the minute intervals, each clamped
to at most 1000 (expressed with `min`, so a pre-clamp value above 1000
yields exactly 1000); together with the worked examples
`('D',7)=7`, `('D',10)=10`, `('W',10)=2`, `('M',40)=2`, `('60',1)=24`. -/
theorem C1_calculate_required_points (days : Nat) :
    DataFetcher.calculate_required_points days "D" = min days 1000 ∧
    DataFetcher.calculate_required_points days "W" = min (days / 7 + 1) 1000 ∧
    DataFetcher.calculate_required_points days "M" = min (days / 30 + 1) 1000 ∧
    (∀ s ∈ DataFetcher.minuteIntervals,
      DataFetcher.calculate_required_points days s
        = min ((days * 1440) / DataFetcher.intervalMinutes s) 1000) ∧
    (∀ s ∈ DataFetcher.supportedIntervals,
      DataFetcher.calculate_required_points days s ≤ 1000) ∧
    DataFetcher.calculate_required_points 7 "D" = 7 ∧
    DataFetcher.calculate_required_points 10 "D" = 10 ∧
    DataFetcher.calculate_required_points 10 "W" = 2 ∧
    DataFetcher.calculate_required_points 40 "M" = 2 ∧
    DataFetcher.calculate_required_points 1 "60" = 24 := by
  refine ⟨by simp [DataFetcher.calculate_required_points], ?_, ?_, ?_, ?_, ?_, ?_, ?_, ?_, ?_⟩
  · simp [DataFetcher.calculate_required_points]
  · simp [DataFetcher.calculate_required_points]
  · intro s hs
    fin_cases hs <;>
      simp [DataFetcher.calculate_required_points, DataFetcher.intervalMinutes,
        Nat.mul_assoc]
  · intro s hs
    fin_cases hs <;>
      simp [DataFetcher.calculate_required_points, DataFetcher.intervalMinutes]
  · simp [DataFetcher.calculate_required_points]
  · simp [DataFetcher.calculate_required_points]
  · simp [DataFetcher.calculate_required_points]
  · simp [DataFetcher.calculate_required_points]
  · simp [DataFetcher.calculate_required_points, DataFetcher.intervalMinutes]

/-- Witness for C1 at `days = 3000`, `s = "60"`: discharges the
minute-interval membership hypothesis and exhibits the 1000 clamp. -/
theorem C1_calculate_required_points_witness :
    DataFetcher.calculate_required_points 3000 "60"
      = min ((3000 * 1440) / DataFetcher.intervalMinutes "60") 1000 ∧
    DataFetcher.calculate_required_points 3000 "60" = 1000 := by
  constructor
  · exact (C1_calculate_required_points 3000).2.2.2.1 "60" (by decide)
  · have h := (C1_calculate_required_points 3000).2.2.2.1 "60" (by decide)
    rw [h]
    decide

/-- C2: the Moving-Average trend detector classifies row `i` as `1`
exactly when the close is strictly above a defined SMA and the SMA's
first difference is defined and strictly positive, as `-1` exactly in
the mirrored case, and as `0` in every other case — in particular
whenever the SMA or its first difference is undefined, which covers the
first `period - 1` rows and the first row with a defined SMA
(`i + 1 ≤ period`). -/
theorem C2_trend_classification (period : Nat) (closes : List ℚ) (i : Nat)
    (_hp : 1 ≤ period) (_hi : i < closes.length) :
    (MarketB.trendAt period closes i = 1 ↔
      ∃ s d, MarketB.smaAt period closes i = some s ∧
        MarketB.smaChangeAt period closes i = some d ∧
        s < closes.getD i 0 ∧ 0 < d) ∧
    (MarketB.trendAt period closes i = -1 ↔
      ∃ s d, MarketB.smaAt period closes i = some s ∧
        MarketB.smaChangeAt period closes i = some d ∧
        closes.getD i 0 < s ∧ d < 0) ∧
    (MarketB.trendAt period closes i = 0 ∨ MarketB.trendAt period closes i = 1 ∨
      MarketB.trendAt period closes i = -1) ∧
    (MarketB.smaAt period closes i = none ∨ MarketB.smaChangeAt period closes i = none →
      MarketB.trendAt period closes i = 0) ∧
    (i + 1 ≤ period → MarketB.trendAt period closes i = 0) := by
  have hup : ∀ h : (gtO (some (closes.getD i 0)) (MarketB.smaAt period closes i)
      && gtO (MarketB.smaChangeAt period closes i) (some 0)) = true,
      ∃ s d, MarketB.smaAt period closes i = some s ∧
        MarketB.smaChangeAt period closes i = some d ∧
        s < closes.getD i 0 ∧ 0 < d := by
    intro h
    rw [Bool.and_eq_true, gtO_eq_true, gtO_eq_true] at h
    obtain ⟨⟨x, y, hx, hy, hxy⟩, u, v, hu, hv, huv⟩ := h
    rw [Option.some.injEq] at hx hv
    subst hx; subst hv
    exact ⟨y, u, hy, hu, hxy, huv⟩
  have hdown : ∀ h : (gtO (MarketB.smaAt period closes i) (some (closes.getD i 0))
      && gtO (some 0) (MarketB.smaChangeAt period closes i)) = true,
      ∃ s d, MarketB.smaAt period closes i = some s ∧
        MarketB.smaChangeAt period closes i = some d ∧
        closes.getD i 0 < s ∧ d < 0 := by
    intro h
    rw [Bool.and_eq_true, gtO_eq_true, gtO_eq_true] at h
    obtain ⟨⟨x, y, hx, hy, hxy⟩, u, v, hu, hv, huv⟩ := h
    rw [Option.some.injEq] at hy hu
    subst hy; subst hu
    exact ⟨x, v, hx, hv, hxy, huv⟩
  have hupc : ∀ s d, MarketB.smaAt period closes i = some s →
      MarketB.smaChangeAt period closes i = some d →
      s < closes.getD i 0 → 0 < d →
      (gtO (some (closes.getD i 0)) (MarketB.smaAt period closes i)
        && gtO (MarketB.smaChangeAt period closes i) (some 0)) = true := by
    intro s d hs hd hsc hd0
    rw [Bool.and_eq_true, gtO_eq_true, gtO_eq_true]
    exact ⟨⟨closes.getD i 0, s, rfl, hs, hsc⟩, d, 0, hd, rfl, hd0⟩
  have hdownc : ∀ s d, MarketB.smaAt period closes i = some s →
      MarketB.smaChangeAt period closes i = some d →
      closes.getD i 0 < s → d < 0 →
      (gtO (MarketB.smaAt period closes i) (some (closes.getD i 0))
        && gtO (some 0) (MarketB.smaChangeAt period closes i)) = true := by
    intro s d hs hd hcs hd0
    rw [Bool.and_eq_true, gtO_eq_true, gtO_eq_true]
    exact ⟨⟨s, closes.getD i 0, hs, rfl, hcs⟩, 0, d, rfl, hd, hd0⟩
  refine ⟨?_, ?_, ?_, ?_, ?_⟩
  · unfold MarketB.trendAt
    split_ifs with h1 h2
    · exact iff_of_true rfl (hup h1)
    · refine iff_of_false (by decide) ?_
      rintro ⟨s, d, hs, hd, hsc, hd0⟩
      exact h1 (hupc s d hs hd hsc hd0)
    · refine iff_of_false (by decide) ?_
      rintro ⟨s, d, hs, hd, hsc, hd0⟩
      exact h1 (hupc s d hs hd hsc hd0)
  · unfold MarketB.trendAt
    split_ifs with h1 h2
    · refine iff_of_false (by decide) ?_
      rintro ⟨s, d, hs, hd, hcs, hd0⟩
      obtain ⟨s', d', hs', hd', hsc', hd0'⟩ := hup h1
      rw [hs] at hs'
      rw [Option.some.injEq] at hs'
      subst hs'
      exact absurd (lt_trans hcs hsc') (lt_irrefl _)
    · exact iff_of_true rfl (hdown h2)
    · refine iff_of_false (by decide) ?_
      rintro ⟨s, d, hs, hd, hcs, hd0⟩
      exact h2 (hdownc s d hs hd hcs hd0)
  · unfold MarketB.trendAt
    split_ifs <;> simp
  · intro hnone
    rcases hnone with hs | hd
    · simp [MarketB.trendAt, hs, MarketB.gtO_none_right, MarketB.gtO_none_left]
    · simp [MarketB.trendAt, hd, MarketB.gtO_none_right, MarketB.gtO_none_left]
  · intro hple
    have hd := MarketB.smaChangeAt_eq_none period closes i hple
    simp [MarketB.trendAt, hd, MarketB.gtO_none_right, MarketB.gtO_none_left]

/-- Witness for C2 at `period = 2`, `closes = [1, 2, 4]`, `i = 2`:
SMA is `3`, its difference is `3/2 > 0`, and the close `4` is above the
SMA, so the classification characterization is exhibited concretely. -/
theorem C2_trend_classification_witness :
    (MarketB.trendAt 2 [1, 2, 4] 2 = 1 ↔
      ∃ s d, MarketB.smaAt 2 [1, 2, 4] 2 = some s ∧
        MarketB.smaChangeAt 2 [1, 2, 4] 2 = some d ∧
        s < ([1, 2, 4] : List ℚ).getD 2 0 ∧ 0 < d) ∧
    (MarketB.trendAt 2 [1, 2, 4] 2 = -1 ↔
      ∃ s d, MarketB.smaAt 2 [1, 2, 4] 2 = some s ∧
        MarketB.smaChangeAt 2 [1, 2, 4] 2 = some d ∧
        ([1, 2, 4] : List ℚ).getD 2 0 < s ∧ d < 0) ∧
    (MarketB.trendAt 2 [1, 2, 4] 2 = 0 ∨ MarketB.trendAt 2 [1, 2, 4] 2 = 1 ∨
      MarketB.trendAt 2 [1, 2, 4] 2 = -1) ∧
    (MarketB.smaAt 2 [1, 2, 4] 2 = none ∨ MarketB.smaChangeAt 2 [1, 2, 4] 2 = none →
      MarketB.trendAt 2 [1, 2, 4] 2 = 0) ∧
    (2 + 1 ≤ 2 → MarketB.trendAt 2 [1, 2, 4] 2 = 0) :=
  C2_trend_classification 2 [1, 2, 4] 2 (by decide) (by decide)

/-- C3: in both pipelines `price_change_24h` is `None` for a table with
fewer than 24 rows, equals
`(close[-1] / close[-24] - 1) * 100` for a table with at least 24 rows,
and for exactly 24 rows this is `(close[23] / close[0] - 1) * 100` — the
percentage change between the last close and the first row's close. -/
theorem C3_price_change_24h (period : Nat) (closes : List ℚ)
    (n p : Nat) (m : ℚ) (tp : Nat) (vm : ℚ) (df : List Candle) :
    (closes.length < 24 →
      (MarketB.analyze_asset period closes).price_change_24h = none) ∧
    (24 ≤ closes.length →
      (MarketB.analyze_asset period closes).price_change_24h
        = some ((closes.getD (closes.length - 1) 0
            / closes.getD (closes.length - 24) 0 - 1) * 100)) ∧
    (closes.length = 24 →
      (MarketB.analyze_asset period closes).price_change_24h
        = some ((closes.getD 23 0 / closes.getD 0 0 - 1) * 100)) ∧
    (df.length < 24 →
      (MarketA.analyze_asset n p m tp vm df).price_change_24h = none) ∧
    (24 ≤ df.length →
      (MarketA.analyze_asset n p m tp vm df).price_change_24h
        = some (((df.map (fun r => r.Close)).getD (df.length - 1) 0
            / (df.map (fun r => r.Close)).getD (df.length - 24) 0 - 1) * 100)) ∧
    (df.length = 24 →
      (MarketA.analyze_asset n p m tp vm df).price_change_24h
        = some (((df.map (fun r => r.Close)).getD 23 0
            / (df.map (fun r => r.Close)).getD 0 0 - 1) * 100)) := by
  refine ⟨?_, ?_, ?_, ?_, ?_, ?_⟩
  · intro h
    have : ¬ 24 ≤ closes.length := by omega
    simp [MarketB.analyze_asset, price_change_24h, this]
  · intro h
    simp [MarketB.analyze_asset, price_change_24h, h]
  · intro h
    have h' : 24 ≤ closes.length := by omega
    simp [MarketB.analyze_asset, price_change_24h, h', h]
  · intro h
    have hn : ¬ 24 ≤ (df.map (fun r => r.Close)).length := by
      simp only [List.length_map]
      omega
    simp [MarketA.analyze_asset, price_change_24h, hn]
    omega
  · intro h
    have h' : 24 ≤ (df.map (fun r => r.Close)).length := by
      simp only [List.length_map]
      omega
    simp [MarketA.analyze_asset, price_change_24h, h']
    omega
  · intro h
    have h' : 24 ≤ (df.map (fun r => r.Close)).length := by
      simp only [List.length_map]
      omega
    simp [MarketA.analyze_asset, price_change_24h, h', h]

/-- Witness for C3 at a 24-row table of constant closes (both
pipelines), discharging the `≥ 24`, `= 24` and `< 24` hypotheses at
rows 24 and 23. -/
theorem C3_price_change_24h_witness :
    ((MarketB.analyze_asset 2 (List.replicate 24 1)).price_change_24h
      = some (((List.replicate 24 (1 : ℚ)).getD 23 0
          / (List.replicate 24 (1 : ℚ)).getD 0 0 - 1) * 100)) ∧
    ((MarketB.analyze_asset 2 (List.replicate 23 1)).price_change_24h = none) ∧
    ((MarketA.analyze_asset 240 14 2 10 1 (List.replicate 24 ⟨0, 1, 1, 1, 1, 1⟩)).price_change_24h
      = some ((((List.replicate 24 (⟨0, 1, 1, 1, 1, 1⟩ : Candle)).map
            (fun r => r.Close)).getD 23 0
          / ((List.replicate 24 (⟨0, 1, 1, 1, 1, 1⟩ : Candle)).map
            (fun r => r.Close)).getD 0 0 - 1) * 100)) := by
  refine ⟨?_, ?_, ?_⟩
  · exact (C3_price_change_24h 2 (List.replicate 24 1) 240 14 2 10 1 []).2.2.1
      (by simp)
  · exact (C3_price_change_24h 2 (List.replicate 23 1) 240 14 2 10 1 []).1
      (by simp)
  · exact (C3_price_change_24h 2 [] 240 14 2 10 1
      (List.replicate 24 ⟨0, 1, 1, 1, 1, 1⟩)).2.2.2.2.2 (by simp)

/-- C4: both `analyze_market` implementations produce percentages that
are all exactly 0 when no asset qualifies and that sum to exactly 100
otherwise, the neutral percentage being the complement
`(total - up - down) / total * 100` of the two counted ones. -/
theorem C4_market_statistics (period : Nat) (market : List (String × List ℚ))
    (n p : Nat) (m : ℚ) (tp : Nat) (vm : ℚ) (mv : Option ℚ)
    (marketA : List (String × List Candle)) :
    StatsSpec (MarketB.analyze_market period market).market_stats ∧
    StatsSpec (MarketA.analyze_market n p m tp vm mv marketA).market_stats :=
  ⟨statsSpec_mkMarketStats _ _ _ (MarketB.tallyB_up_down_le period market),
   statsSpec_mkMarketStats _ _ _ (MarketA.tallyA_up_down_le n p m tp vm mv marketA)⟩

/-- Witness for C4: a one-asset market (so `total_assets = 1 > 0`) whose
percentages must sum to 100, and an empty market whose percentages are
all zero; both obtained by applying `C4_market_statistics`. -/
theorem C4_market_statistics_witness :
    ((MarketB.analyze_market 1 [("BTCUSDT", [1])]).market_stats.total_assets = 1 ∧
      (MarketB.analyze_market 1 [("BTCUSDT", [1])]).market_stats.uptrend_percentage
        + (MarketB.analyze_market 1 [("BTCUSDT", [1])]).market_stats.downtrend_percentage
        + (MarketB.analyze_market 1 [("BTCUSDT", [1])]).market_stats.neutral_percentage
        = 100) ∧
    ((MarketA.analyze_market 240 14 2 10 1 none []).market_stats.uptrend_percentage = 0 ∧
      (MarketA.analyze_market 240 14 2 10 1 none []).market_stats.downtrend_percentage = 0 ∧
      (MarketA.analyze_market 240 14 2 10 1 none []).market_stats.neutral_percentage = 0) := by
  have htot : (MarketB.analyze_market 1 [("BTCUSDT", [1])]).market_stats.total_assets = 1 := by
    simp [MarketB.analyze_market, MarketB.tally, mkMarketStats]
  have htotA : (MarketA.analyze_market 240 14 2 10 1 none []).market_stats.total_assets = 0 := by
    simp [MarketA.analyze_market, MarketA.tally, mkMarketStats]
  refine ⟨⟨htot, ?_⟩, ?_⟩
  · exact ((C4_market_statistics 1 [("BTCUSDT", [1])] 240 14 2 10 1 none []).1.2
      (by rw [htot]; norm_num)).1
  · exact (C4_market_statistics 1 [("BTCUSDT", [1])] 240 14 2 10 1 none []).2.1 htotA

/-- C5 counterexample: on eight epoch-aligned hourly bars with closes
`1..8` and 240-minute resampling, row 5 (minute 300) lies strictly
between the close of bucket 0 (minute 240) and the close of bucket 1
(minute 480), yet its carried resampled Close is bucket 1's aggregate
`8` — the close of the *later* row at minute 420 — and not the previous
bucket's value `4`.  The carry-back holds the current bucket's
aggregate (with lookahead inside the bucket), refuting "between two
bucket closes every original row holds the previous bucket's constant
values". -/
theorem C5_previous_bucket_counterexample :
    (exampleHourly.getD 5 default).ts = 300 ∧
    (MarketA.aggBucket (MarketA.bucketRows 240 exampleHourly 0)).Close = some 4 ∧
    (MarketA.aggBucket (MarketA.bucketRows 240 exampleHourly 1)).Close = some 8 ∧
    (MarketA.resampleCloseCarried 240 exampleHourly).getD 5 none = some 8 ∧
    (MarketA.resampleCloseCarried 240 exampleHourly).getD 5 none ≠ some 4 := by
  have hcarried : MarketA.resampleCloseCarried 240 exampleHourly
      = [some 4, some 4, some 4, some 4, some 8, some 8, some 8, some 8] := rfl
  refine ⟨rfl, rfl, rfl, ?_, ?_⟩
  · rw [hcarried]
    rfl
  · rw [hcarried]
    simp only [List.getD_eq_getElem?_getD]
    norm_num

/-- C5 (amended): resampling aggregates each `n`-minute bucket with
Open = first, High = max, Low = min, Close = last, Volume = sum (the
spec's worked example evaluates as stated), and the resampled columns
are carried back onto the original rows by matching bucket-start labels
against the original timestamps and then forward-filling with the last
non-NaN value (no interpolation); consequently an original row whose
timestamp is a bucket start receives its own (current) bucket's
aggregate — computed over the whole bucket, later rows included — and
that value is held constant until the next matched label, rather than
rows holding the previous bucket's values. -/
theorem C5_resample_carryback :
    (∀ (xs : List (Option ℚ)) (i : Nat), i < xs.length →
      (ffill none xs).getD i none = lastSome (xs.take (i + 1))) ∧
    (∀ (n : Nat) (df : List Candle),
      MarketA.resampleCloseCarried n df
        = ffill none (reindexTo (MarketA.resampledClosePairs n df)
            (df.map (fun r => r.ts)))) ∧
    (∀ (n : Nat) (df : List Candle) (i : Nat), 0 < n → i < df.length →
      (df.getD i default).ts % n = 0 →
      (reindexTo (MarketA.resampledClosePairs n df)
          (df.map (fun r => r.ts))).getD i none
        = (MarketA.aggBucket (MarketA.bucketRows n df
            ((df.getD i default).ts / n))).Close) ∧
    MarketA.resample_to_interval 240 exampleClaim
      = [(0, ⟨some 10, some (27/2), some 10, some (27/2), 14⟩)] := by
  refine ⟨fun xs i h => ffill_getD xs none i h, fun n df => rfl, reindex_aligned, ?_⟩
  show [(0 * 240, MarketA.aggBucket (MarketA.bucketRows 240 exampleClaim 0))] = _
  have hrows : MarketA.bucketRows 240 exampleClaim 0 = exampleClaim := rfl
  rw [hrows]
  simp only [MarketA.aggBucket, exampleClaim, List.map_cons, List.map_nil,
    List.foldl_cons, List.foldl_nil, List.head?_cons, List.getLast?_cons_cons,
    List.getLast?_singleton, List.sum_cons, List.sum_nil, Option.map_some]
  norm_num [max_def, min_def, MarketA.RBar.mk.injEq]

/-- Witness for C5 (amended) at concrete inputs: the forward-fill
characterization on `[none, some 3, none]` at row 2, and the
aligned-row carry on `exampleHourly` at row 4 (minute 240, the start of
bucket 1). -/
theorem C5_resample_carryback_witness :
    ((ffill none [none, some 3, none]).getD 2 none
      = lastSome (([none, some 3, none] : List (Option ℚ)).take (2 + 1))) ∧
    ((reindexTo (MarketA.resampledClosePairs 240 exampleHourly)
        (exampleHourly.map (fun r => r.ts))).getD 4 none
      = (MarketA.aggBucket (MarketA.bucketRows 240 exampleHourly
          ((exampleHourly.getD 4 default).ts / 240))).Close) :=
  ⟨C5_resample_carryback.1 [none, some 3, none] 2 (by decide),
   C5_resample_carryback.2.2.1 240 exampleHourly 4 (by decide) (by decide) (by decide)⟩

/-- C6: under the precondition that every clear-trend entry carries its
`sma` field, `save_analysis` succeeds and its stored
`top_trending_assets` list is exactly the first `top_n` entries of the
descending-by-distance sort of the annotated clear-trend assets: it is
sorted descending, its length is `min top_n` (number of clear-trend
assets), together with the dropped tail it is a permutation of all
annotated clear-trend assets, and every kept entry's distance is at
least every dropped entry's distance.  The stored `market_summary`
counts are `total_assets * percentage / 100` truncated by `int()`. -/
theorem C6_save_analysis_top_trending (market_stats : MarketStats)
    (assets : List (String × MarketStorage.AssetDict)) (interval ts : String)
    (top_n : Nat)
    (h : ∀ e ∈ assets, e.2.current_trend.natAbs = 1 → e.2.sma.isSome) :
    (∀ e : String × MarketStorage.AssetDict,
      MarketStorage.annotateAsset e
        = { symbol := e.1
            trend := if e.2.current_trend = 1 then "uptrend" else "downtrend"
            price := e.2.last_price
            sma := e.2.sma.getD 0
            distance := |e.2.last_price - e.2.sma.getD 0| / e.2.sma.getD 0 * 100 }) ∧
    ∃ rec, MarketStorage.save_analysis market_stats assets interval ts top_n
        = .ok rec ∧
      rec.top_trending_assets
        = (((MarketStorage.clearTrendEntries assets).map
            MarketStorage.annotateAsset).mergeSort MarketStorage.distGe).take top_n ∧
      List.Pairwise (fun a b => MarketStorage.distGe a b = true)
        rec.top_trending_assets ∧
      rec.top_trending_assets.length
        = min top_n (MarketStorage.clearTrendEntries assets).length ∧
      (rec.top_trending_assets
          ++ (((MarketStorage.clearTrendEntries assets).map
            MarketStorage.annotateAsset).mergeSort MarketStorage.distGe).drop top_n).Perm
        ((MarketStorage.clearTrendEntries assets).map MarketStorage.annotateAsset) ∧
      (∀ x ∈ rec.top_trending_assets,
        ∀ y ∈ (((MarketStorage.clearTrendEntries assets).map
            MarketStorage.annotateAsset).mergeSort MarketStorage.distGe).drop top_n,
          y.distance ≤ x.distance) ∧
      rec.market_summary.assets_in_uptrend
        = MarketStorage.pyInt ((market_stats.total_assets : ℚ)
            * market_stats.uptrend_percentage / 100) ∧
      rec.market_summary.assets_in_downtrend
        = MarketStorage.pyInt ((market_stats.total_assets : ℚ)
            * market_stats.downtrend_percentage / 100) ∧
      rec.market_summary.assets_in_neutral
        = MarketStorage.pyInt ((market_stats.total_assets : ℚ)
            * market_stats.neutral_percentage / 100) := by
  refine ⟨fun e => rfl, ?_⟩
  have hok := buildTrendingAssets_ok assets h
  have hsave : MarketStorage.save_analysis market_stats assets interval ts top_n
      = .ok { timestamp := ts, interval := interval,
              market_summary := MarketStorage.mkMarketSummary market_stats,
              top_trending_assets := (((MarketStorage.clearTrendEntries assets).map
                MarketStorage.annotateAsset).mergeSort
                  MarketStorage.distGe).take top_n } := by
    show (MarketStorage.buildTrendingAssets assets).map _ = _
    rw [hok]
    rfl
  have hsorted : List.Pairwise (fun a b => MarketStorage.distGe a b = true)
      (((MarketStorage.clearTrendEntries assets).map
        MarketStorage.annotateAsset).mergeSort MarketStorage.distGe) :=
    List.sorted_mergeSort distGe_trans distGe_total _
  refine ⟨_, hsave, rfl, ?_, ?_, ?_, ?_, rfl, rfl, rfl⟩
  · exact hsorted.sublist (List.take_sublist _ _)
  · simp [List.length_take, List.length_mergeSort]
  · rw [List.take_append_drop]
    exact List.mergeSort_perm _ _
  · intro x hx y hy
    have hcross := (List.pairwise_append.mp
      (by rw [List.take_append_drop]; exact hsorted)).2.2 x hx y hy
    simpa [MarketStorage.distGe] using hcross

/-- Witness for C6: three assets, two with clear trends and distinct
distances (10% and 20%), `top_n = 1`; the theorem applies with the
`sma`-present hypothesis discharged concretely. -/
theorem C6_save_analysis_top_trending_witness :
    (∀ e : String × MarketStorage.AssetDict,
      MarketStorage.annotateAsset e
        = { symbol := e.1
            trend := if e.2.current_trend = 1 then "uptrend" else "downtrend"
            price := e.2.last_price
            sma := e.2.sma.getD 0
            distance := |e.2.last_price - e.2.sma.getD 0| / e.2.sma.getD 0 * 100 }) ∧
    ∃ rec, MarketStorage.save_analysis ⟨2, 50, 50, 0⟩
        [("AUSDT", ⟨1, 110, some 100⟩), ("BUSDT", ⟨-1, 80, some 100⟩),
          ("CUSDT", ⟨0, 50, some 100⟩)] "D" "t0" 1
        = .ok rec ∧
      rec.top_trending_assets
        = (((MarketStorage.clearTrendEntries
            [("AUSDT", ⟨1, 110, some 100⟩), ("BUSDT", ⟨-1, 80, some 100⟩),
              ("CUSDT", ⟨0, 50, some 100⟩)]).map
            MarketStorage.annotateAsset).mergeSort MarketStorage.distGe).take 1 ∧
      List.Pairwise (fun a b => MarketStorage.distGe a b = true)
        rec.top_trending_assets ∧
      rec.top_trending_assets.length
        = min 1 (MarketStorage.clearTrendEntries
            [("AUSDT", ⟨1, 110, some 100⟩), ("BUSDT", ⟨-1, 80, some 100⟩),
              ("CUSDT", ⟨0, 50, some 100⟩)]).length ∧
      (rec.top_trending_assets
          ++ (((MarketStorage.clearTrendEntries
            [("AUSDT", ⟨1, 110, some 100⟩), ("BUSDT", ⟨-1, 80, some 100⟩),
              ("CUSDT", ⟨0, 50, some 100⟩)]).map
            MarketStorage.annotateAsset).mergeSort MarketStorage.distGe).drop 1).Perm
        ((MarketStorage.clearTrendEntries
            [("AUSDT", ⟨1, 110, some 100⟩), ("BUSDT", ⟨-1, 80, some 100⟩),
              ("CUSDT", ⟨0, 50, some 100⟩)]).map MarketStorage.annotateAsset) ∧
      (∀ x ∈ rec.top_trending_assets,
        ∀ y ∈ (((MarketStorage.clearTrendEntries
            [("AUSDT", ⟨1, 110, some 100⟩), ("BUSDT", ⟨-1, 80, some 100⟩),
              ("CUSDT", ⟨0, 50, some 100⟩)]).map
            MarketStorage.annotateAsset).mergeSort MarketStorage.distGe).drop 1,
          y.distance ≤ x.distance) ∧
      rec.market_summary.assets_in_uptrend
        = MarketStorage.pyInt (((2 : Nat) : ℚ) * 50 / 100) ∧
      rec.market_summary.assets_in_downtrend
        = MarketStorage.pyInt (((2 : Nat) : ℚ) * 50 / 100) ∧
      rec.market_summary.assets_in_neutral
        = MarketStorage.pyInt (((2 : Nat) : ℚ) * 0 / 100) :=
  C6_save_analysis_top_trending ⟨2, 50, 50, 0⟩
    [("AUSDT", ⟨1, 110, some 100⟩), ("BUSDT", ⟨-1, 80, some 100⟩),
      ("CUSDT", ⟨0, 50, some 100⟩)] "D" "t0" 1
    (by
      intro e he
      simp only [List.mem_cons, List.not_mem_nil, or_false] at he
      rcases he with rfl | rfl | rfl <;> simp)

/-- C7: `fetch_all_market_data` is total in the embedding (every
fetch-level failure is absorbed by `get_kline_data`, which returns an
empty table on an exception or an empty response), visits every symbol
in order, and its result mapping holds exactly the symbols whose table
came back non-empty — so one symbol's failure leaves every other
symbol's result in place. -/
theorem C7_fetch_all_resilient (symbols : List String)
    (fetch : String → DataFetcher.FetchOutcome) :
    (∀ msg, DataFetcher.get_kline_data (.err msg) = []) ∧
    DataFetcher.fetch_all_market_data symbols fetch
      = (symbols.filter (fun s => !(DataFetcher.get_kline_data (fetch s)).isEmpty)).map
          (fun s => (s, DataFetcher.get_kline_data (fetch s))) ∧
    (∀ s rows, (s, rows) ∈ DataFetcher.fetch_all_market_data symbols fetch →
      s ∈ symbols ∧ rows = DataFetcher.get_kline_data (fetch s) ∧ rows ≠ []) ∧
    (∀ s ∈ symbols, DataFetcher.get_kline_data (fetch s) ≠ [] →
      (s, DataFetcher.get_kline_data (fetch s)) ∈
        DataFetcher.fetch_all_market_data symbols fetch) := by
  have hmain : DataFetcher.fetch_all_market_data symbols fetch
      = (symbols.filter (fun s => !(DataFetcher.get_kline_data (fetch s)).isEmpty)).map
          (fun s => (s, DataFetcher.get_kline_data (fetch s))) := by
    have h0 := DataFetcher.fetch_all_foldl symbols fetch []
    simpa [DataFetcher.fetch_all_market_data] using h0
  refine ⟨fun _ => rfl, hmain, ?_, ?_⟩
  · intro s rows hmem
    rw [hmain] at hmem
    rcases List.mem_map.mp hmem with ⟨s', hs', heq⟩
    rcases List.mem_filter.mp hs' with ⟨hsym, hne⟩
    cases heq
    refine ⟨hsym, rfl, ?_⟩
    simpa [List.isEmpty_iff] using hne
  · intro s hs hne
    rw [hmain]
    refine List.mem_map.mpr ⟨s, List.mem_filter.mpr ⟨hs, ?_⟩, rfl⟩
    simpa [List.isEmpty_iff] using hne

/-- Witness for C7: two symbols, the first failing with a simulated
network error; the second symbol's data is still in the result. -/
theorem C7_fetch_all_resilient_witness :
    ("BTCUSDT" ∈ ["ETHUSDT", "BTCUSDT"] ∧
      DataFetcher.get_kline_data
        ((fun s => if s = "ETHUSDT" then DataFetcher.FetchOutcome.err "network down"
          else DataFetcher.FetchOutcome.ok [⟨0, 1, 1, 1, 1, 1⟩]) "BTCUSDT") ≠ []) ∧
    ("BTCUSDT", DataFetcher.get_kline_data
        ((fun s => if s = "ETHUSDT" then DataFetcher.FetchOutcome.err "network down"
          else DataFetcher.FetchOutcome.ok [⟨0, 1, 1, 1, 1, 1⟩]) "BTCUSDT")) ∈
      DataFetcher.fetch_all_market_data ["ETHUSDT", "BTCUSDT"]
        (fun s => if s = "ETHUSDT" then DataFetcher.FetchOutcome.err "network down"
          else DataFetcher.FetchOutcome.ok [⟨0, 1, 1, 1, 1, 1⟩]) := by
  refine ⟨⟨by decide, by simp [DataFetcher.get_kline_data]⟩, ?_⟩
  exact (C7_fetch_all_resilient ["ETHUSDT", "BTCUSDT"] _).2.2.2 "BTCUSDT" (by decide)
    (by simp [DataFetcher.get_kline_data])

/-- C8: with the snapshot directory unchanged between the two
`load_latest_analysis` calls of the Moving-Average orchestration run,
the second ("previous") load returns the identical record, so the
timestamp-differs guard is always false and the percentage-delta
comparison is never printed. -/
theorem C8_previous_comparison_noop (interval : String)
    (dir : List MarketStorage.SnapshotFile) :
    MarketStorage.load_latest_analysis interval dir
      = MarketStorage.load_latest_analysis interval dir ∧
    Main.comparison_printed interval dir = false := by
  refine ⟨rfl, ?_⟩
  unfold Main.comparison_printed
  cases MarketStorage.load_latest_analysis interval dir with
  | none => rfl
  | some a => simp

/-- C9: `save_analysis` reads `last_price` and `sma` of exactly the
clear-trend entries.  Moving-Average dictionaries always carry the
`sma` key while Volatility-Band dictionaries never do; when every
clear-trend entry has the key the call succeeds and appends one snapshot
file, and when some clear-trend entry lacks it the call raises a
missing-key error before any file is written, leaving the directory
unchanged. -/
theorem C9_save_analysis_sma_key (period : Nat) (closes : List ℚ)
    (n p : Nat) (m : ℚ) (tp : Nat) (vm : ℚ) (df : List Candle) :
    (MarketB.toDict (MarketB.analyze_asset period closes)).sma.isSome ∧
    (MarketA.toDict (MarketA.analyze_asset n p m tp vm df)).sma = none ∧
    (∀ (stats : MarketStats) (assets : List (String × MarketStorage.AssetDict))
        (interval ts : String) (top_n : Nat)
        (dir : List MarketStorage.SnapshotFile) (mtime : Nat),
      (∀ e ∈ assets, e.2.current_trend.natAbs = 1 → e.2.sma.isSome) →
        ∃ rec, MarketStorage.save_analysis stats assets interval ts top_n
            = .ok rec ∧
          MarketStorage.runSave dir stats assets interval ts top_n mtime
            = dir ++ [⟨interval, mtime, some rec⟩]) ∧
    (∀ (stats : MarketStats) (assets : List (String × MarketStorage.AssetDict))
        (interval ts : String) (top_n : Nat)
        (dir : List MarketStorage.SnapshotFile) (mtime : Nat),
      (∃ e ∈ assets, e.2.current_trend.natAbs = 1 ∧ e.2.sma = none) →
        (∃ msg, MarketStorage.save_analysis stats assets interval ts top_n
            = .error msg) ∧
        MarketStorage.runSave dir stats assets interval ts top_n mtime = dir) := by
  refine ⟨rfl, rfl, ?_, ?_⟩
  · intro stats assets interval ts top_n dir mtime h
    have hok := buildTrendingAssets_ok assets h
    have hsave : MarketStorage.save_analysis stats assets interval ts top_n
        = .ok { timestamp := ts, interval := interval,
                market_summary := MarketStorage.mkMarketSummary stats,
                top_trending_assets := (((MarketStorage.clearTrendEntries assets).map
                  MarketStorage.annotateAsset).mergeSort
                    MarketStorage.distGe).take top_n } := by
      show (MarketStorage.buildTrendingAssets assets).map _ = _
      rw [hok]
      rfl
    refine ⟨_, hsave, ?_⟩
    unfold MarketStorage.runSave
    rw [hsave]
  · intro stats assets interval ts top_n dir mtime h
    obtain ⟨msg, hmsg⟩ := buildTrendingAssets_err assets h
    have herr : MarketStorage.save_analysis stats assets interval ts top_n
        = .error msg := by
      show (MarketStorage.buildTrendingAssets assets).map _ = _
      rw [hmsg]
      rfl
    refine ⟨⟨msg, herr⟩, ?_⟩
    unfold MarketStorage.runSave
    rw [herr]

/-- Witness for C9: a clear-trend dictionary with the `sma` key saves
successfully and appends a file; a clear-trend dictionary without the
key fails and leaves the directory unchanged. -/
theorem C9_save_analysis_sma_key_witness :
    (∃ rec, MarketStorage.save_analysis ⟨1, 100, 0, 0⟩
        [("BTCUSDT", ⟨1, 110, some 100⟩)] "D" "t0" 10 = .ok rec ∧
      MarketStorage.runSave [] ⟨1, 100, 0, 0⟩
          [("BTCUSDT", ⟨1, 110, some 100⟩)] "D" "t0" 10 7
        = [] ++ [⟨"D", 7, some rec⟩]) ∧
    ((∃ msg, MarketStorage.save_analysis ⟨1, 0, 100, 0⟩
        [("ETHUSDT", ⟨-1, 80, none⟩)] "D" "t0" 10 = .error msg) ∧
      MarketStorage.runSave [] ⟨1, 0, 100, 0⟩
          [("ETHUSDT", ⟨-1, 80, none⟩)] "D" "t0" 10 7 = []) := by
  constructor
  · exact (C9_save_analysis_sma_key 1 [] 240 14 2 10 1 []).2.2.1
      ⟨1, 100, 0, 0⟩ [("BTCUSDT", ⟨1, 110, some 100⟩)] "D" "t0" 10 [] 7
      (by intro e he; simp at he; rw [he]; intro; rfl)
  · exact (C9_save_analysis_sma_key 1 [] 240 14 2 10 1 []).2.2.2
      ⟨1, 0, 100, 0⟩ [("ETHUSDT", ⟨-1, 80, none⟩)] "D" "t0" 10 [] 7
      ⟨("ETHUSDT", ⟨-1, 80, none⟩), by simp, by decide, rfl⟩

/-- C10: in both pipelines `trend_changes` counts the rows whose trend
first-difference is nonzero or undefined; the first row's undefined
difference always counts, so a non-empty table reports at least one
change, and a constant classification (e.g. entirely neutral) reports
exactly 1, never 0. -/
theorem C10_trend_changes (period : Nat) (closes : List ℚ)
    (n p : Nat) (m : ℚ) (tp : Nat) (vm : ℚ) (df : List Candle) :
    (∀ (x : ℤ) (rest : List ℤ),
      trend_changes_of (x :: rest)
        = 1 + (((x :: rest).zipWith (fun a b => some (b - a)) rest).countP
            (fun d => decide (d ≠ some 0)))) ∧
    (closes ≠ [] →
      1 ≤ (MarketB.analyze_asset period closes).trend_changes ∧
      ((∃ c, ∀ t ∈ MarketB.trendList period closes, t = c) →
        (MarketB.analyze_asset period closes).trend_changes = 1)) ∧
    (df ≠ [] →
      1 ≤ (MarketA.analyze_asset n p m tp vm df).trend_changes ∧
      ((∃ c, ∀ t ∈ MarketA.trendList n p m tp vm df, t = c) →
        (MarketA.analyze_asset n p m tp vm df).trend_changes = 1)) := by
  refine ⟨trend_changes_of_cons, ?_, ?_⟩
  · intro h
    have hne : MarketB.trendList period closes ≠ [] := by
      simp [MarketB.trendList]
      exact h
    exact ⟨trend_changes_of_pos _ hne, fun hc => trend_changes_of_const _ hne hc⟩
  · intro h
    have hne : MarketA.trendList n p m tp vm df ≠ [] := by
      simp [MarketA.trendList]
      exact h
    exact ⟨trend_changes_of_pos _ hne, fun hc => trend_changes_of_const _ hne hc⟩

/-- Witness for C10: a one-row table in each pipeline; the classification
is the constant `0`, and `trend_changes` is exactly 1 (not 0). -/
theorem C10_trend_changes_witness :
    trend_changes_of [(0 : ℤ)]
      = 1 + ((([(0 : ℤ)]).zipWith (fun a b => some (b - a)) []).countP
          (fun d => decide (d ≠ some 0))) ∧
    (MarketB.analyze_asset 100 [(5 : ℚ)]).trend_changes = 1 ∧
    (MarketA.analyze_asset 240 14 2 10 1 [⟨0, 1, 1, 1, 1, 1⟩]).trend_changes = 1 := by
  refine ⟨(C10_trend_changes 100 [(5 : ℚ)] 240 14 2 10 1 [⟨0, 1, 1, 1, 1, 1⟩]).1 0 [], ?_, ?_⟩
  · refine ((C10_trend_changes 100 [(5 : ℚ)] 240 14 2 10 1
      [⟨0, 1, 1, 1, 1, 1⟩]).2.1 (by simp)).2 ⟨0, ?_⟩
    intro t ht
    simp [MarketB.trendList, MarketB.trendAt, MarketB.smaAt, MarketB.smaChangeAt, gtO] at ht
    omega
  · refine ((C10_trend_changes 100 [(5 : ℚ)] 240 14 2 10 1
      [⟨0, 1, 1, 1, 1, 1⟩]).2.2 (by simp)).2 ⟨0, ?_⟩
    intro t ht
    have hclose : MarketA.resampleCloseCarried 240 [⟨0, 1, 1, 1, 1, 1⟩] = [some 1] := by
      simp [MarketA.resampleCloseCarried, MarketA.carriedColumn,
        MarketA.resampledClosePairs, MarketA.resample_to_interval,
        MarketA.bucketRows, MarketA.aggBucket, reindexTo, ffill]
    have hatr : MarketA.resampleATRCarried 240 14 2 [⟨0, 1, 1, 1, 1, 1⟩] = [none] := by
      simp [MarketA.resampleATRCarried, MarketA.carriedColumn,
        MarketA.resampledATRPairs, MarketA.resample_to_interval,
        MarketA.bucketRows, MarketA.aggBucket, MarketA.atrList,
        MarketA.trueRangeList, maxSkipna, rollingMeanO, reindexTo, ffill,
        List.range_succ]
    have hro : rollingMeanO 10 [(some 1 : Option ℚ)] = [none] := by
      simp [rollingMeanO, List.range_succ]
    have hlist : MarketA.trendList 240 14 2 10 1 [⟨0, 1, 1, 1, 1, 1⟩] = [0] := by
      simp [MarketA.trendList, hclose, hatr, hro, List.range_succ, gtO, Option.map₂]
    rw [hlist] at ht
    simpa using ht
